import Mathlib

/-!
Verification development for the lecroyWaveJet300 IVI oscilloscope driver
(src/ivi/lecroy/lecroyWaveJet300.py).

Python strings are modelled as `List Char`, Python floats as exact rationals
(`ℚ`), Python ints as `ℤ`/`ℕ`, and a raised exception as an error flag carried
to the caller together with the state at the raise point.  The per-attribute
cache validity flags and the transport primitives live in the `ivi` base
module, which is not part of the sources here; they are modelled from the
spec (section 4.1/4.2): a cache entry is a value paired with a validity flag,
a write is traced as an explicit command list, and a read counts its device
queries.
-/

namespace WaveJet

/-! ## Python string primitives -/

/-- Python str.lower, applied per character. -/
def pyLower (l : List Char) : List Char := l.map Char.toLower

/-- Python str.rstrip(chars): remove all trailing characters from the set `S`. -/
def pyRstrip (l : List Char) (S : List Char) : List Char :=
  ((l.reverse).dropWhile (fun c => decide (c ∈ S))).reverse

/-- Python str.lstrip(): remove leading whitespace. -/
def pyLstrip (l : List Char) : List Char := l.dropWhile Char.isWhitespace

/-- Trailing-whitespace strip, used to model the whitespace tolerance of
Python int() and float(). -/
def pyRstripWs (l : List Char) : List Char :=
  ((l.reverse).dropWhile Char.isWhitespace).reverse

/-- Python str.split(sep) for a one-character separator: "".split(sep) is
[""], and every occurrence of the separator starts a new piece. -/
def pySplit (sep : Char) : List Char → List (List Char)
  | [] => [[]]
  | x :: xs =>
    if x = sep then [] :: pySplit sep xs
    else
      match pySplit sep xs with
      | [] => [[x]]
      | h :: t => (x :: h) :: t

/-- reply.split(sep)[0]: the first separated field (the split list is never
empty). -/
def firstField (sep : Char) (l : List Char) : List Char :=
  (pySplit sep l).headD []

/-! ## Numeric parsing (Python int() and float(), valued in ℚ/ℤ) -/

/-- Value of a digit string, most significant first. -/
def digitsVal (l : List Char) : ℕ :=
  l.foldl (fun a c => 10 * a + (c.toNat - 48)) 0

/-- Decimal mantissa `digits[.digits]` with at least one digit somewhere,
as an exact rational. -/
def parseUnsignedDec (l : List Char) : Option ℚ :=
  let ip := l.takeWhile Char.isDigit
  let rest := l.dropWhile Char.isDigit
  match rest with
  | [] => if ip.isEmpty then none else some (digitsVal ip : ℚ)
  | '.' :: fp =>
    if fp.all Char.isDigit && !(ip.isEmpty && fp.isEmpty) then
      some ((digitsVal ip : ℚ) + (digitsVal fp : ℚ) / (10 : ℚ) ^ fp.length)
    else none
  | _ => none

/-- Optionally signed digit string, as an integer. -/
def parseSignedInt (l : List Char) : Option ℤ :=
  match l with
  | '+' :: t => if !t.isEmpty && t.all Char.isDigit then some (digitsVal t : ℤ) else none
  | '-' :: t => if !t.isEmpty && t.all Char.isDigit then some (-(digitsVal t : ℤ)) else none
  | _ => if !l.isEmpty && l.all Char.isDigit then some (digitsVal l : ℤ) else none

/-- Python float(): surrounding whitespace, optional sign, decimal mantissa,
optional `e`/`E` exponent.  The exact decimal value is returned as a rational;
a parse failure models the ValueError float() raises. -/
def parseFloat (l0 : List Char) : Option ℚ :=
  let l := pyRstripWs (pyLstrip l0)
  let sgn : ℚ := match l with | '-' :: _ => -1 | _ => 1
  let l1 : List Char := match l with | '+' :: t => t | '-' :: t => t | _ => l
  let mant := l1.takeWhile (fun c => !(c == 'e' || c == 'E'))
  let rest := l1.dropWhile (fun c => !(c == 'e' || c == 'E'))
  match rest with
  | [] => (parseUnsignedDec mant).map (fun m => sgn * m)
  | _ :: ex => do
    let m ← parseUnsignedDec mant
    let e ← parseSignedInt ex
    some (sgn * m * (10 : ℚ) ^ e)

/-- Python int(): surrounding whitespace, optional sign, digits. -/
def parsePyInt (l : List Char) : Option ℤ :=
  parseSignedInt (pyRstripWs (pyLstrip l))

/-- lecroyWaveJet300._suffixed_string_to_float (lines 896-908): engineering
suffix scaling.  Each `if` mirrors one endswith test of the source; the
single-character endswith tests are expressed through `getLast?`. -/
def suffixed_string_to_float (l : List Char) : Option ℚ :=
  if l.getLast? = some 'n' then
    (parseFloat (pyRstrip l ['n'])).map (fun v => v * (1 / 1000000000))
  else if l.getLast? = some 'u' then
    (parseFloat (pyRstrip l ['u'])).map (fun v => v * (1 / 1000000))
  else if l.getLast? = some 'm' then
    (parseFloat (pyRstrip l ['m'])).map (fun v => v * (1 / 1000))
  else if (pyLower l).getLast? = some 'k' then
    (parseFloat (pyRstrip l ['k', 'K'])).map (fun v => v * 1000)
  else if l.getLast? = some 'M' then
    (parseFloat (pyRstrip l ['M'])).map (fun v => v * 1000000)
  else parseFloat l

/-! ## Helper lemmas about the string primitives -/

lemma pyRstrip_append_singleton (l : List Char) (c : Char) (S : List Char)
    (hc : c ∈ S) (hl : ∀ d, l.getLast? = some d → d ∉ S) :
    pyRstrip (l ++ [c]) S = l := by
  unfold pyRstrip
  rw [List.reverse_append]
  simp only [List.reverse_cons, List.reverse_nil, List.nil_append, List.singleton_append]
  rw [List.dropWhile_cons]
  simp only [hc, decide_true_eq_true, if_pos]
  cases hrev : l.reverse with
  | nil =>
    simp only [List.dropWhile_nil, List.reverse_nil]
    exact (List.reverse_eq_nil_iff.mp hrev).symm
  | cons d t =>
    have hlast : l.getLast? = some d := by
      rw [← List.head?_reverse, hrev]; rfl
    rw [List.dropWhile_cons]
    have hd : decide (d ∈ S) = false := by
      simpa using hl d hlast
    rw [if_neg (by simp [hd])]
    rw [← hrev, List.reverse_reverse]

lemma pyLower_getLast? (l : List Char) :
    (pyLower l).getLast? = Option.map Char.toLower l.getLast? :=
  List.getLast?_map Char.toLower l

/-! ## C8: suffix-scaled numeric parsing -/

/-- C8: for every numeric reply string ending in one of the suffixes
n, u, m, k, K, M, the suffix-scaled parser returns the numeric prefix
multiplied by 1e-9, 1e-6, 1e-3, 1e3, 1e3, 1e6 respectively, and for every
string with no such suffix it returns the plain float value of the string.
The numeric prefix is any string the float parser accepts whose last
character is not itself one of the suffix letters. -/
theorem suffix_scaling (l : List Char) (q : ℚ) (d : Char)
    (hq : parseFloat l = some q) (hd : l.getLast? = some d)
    (hns : d ∉ (['n', 'u', 'm', 'M'] : List Char)) (hk : d.toLower ≠ 'k') :
    suffixed_string_to_float (l ++ ['n']) = some (q * (1 / 1000000000)) ∧
    suffixed_string_to_float (l ++ ['u']) = some (q * (1 / 1000000)) ∧
    suffixed_string_to_float (l ++ ['m']) = some (q * (1 / 1000)) ∧
    suffixed_string_to_float (l ++ ['k']) = some (q * 1000) ∧
    suffixed_string_to_float (l ++ ['K']) = some (q * 1000) ∧
    suffixed_string_to_float (l ++ ['M']) = some (q * 1000000) ∧
    suffixed_string_to_float l = some q := by
  have hnotS : ∀ (S : List Char), (∀ x ∈ S, x.toLower = 'k' ∨
      x ∈ (['n', 'u', 'm', 'M'] : List Char)) →
      ∀ d', l.getLast? = some d' → d' ∉ S := by
    intro S hsub d' hd' hmem
    rw [hd] at hd'
    cases hd'
    rcases hsub d hmem with h | h
    · exact hk h
    · exact hns h
  have hn : d ≠ 'n' := fun h => hns (by simp [h])
  have hu : d ≠ 'u' := fun h => hns (by simp [h])
  have hm : d ≠ 'm' := fun h => hns (by simp [h])
  have hM : d ≠ 'M' := fun h => hns (by simp [h])
  refine ⟨?_, ?_, ?_, ?_, ?_, ?_, ?_⟩
  · rw [suffixed_string_to_float, if_pos (List.getLast?_concat l)]
    rw [pyRstrip_append_singleton l 'n' ['n'] (by decide) (hnotS _ (by decide)), hq]
    rfl
  · rw [suffixed_string_to_float]
    rw [if_neg (by rw [List.getLast?_concat]; decide), if_pos (List.getLast?_concat l)]
    rw [pyRstrip_append_singleton l 'u' ['u'] (by decide) (hnotS _ (by decide)), hq]
    rfl
  · rw [suffixed_string_to_float]
    rw [if_neg (by rw [List.getLast?_concat]; decide),
        if_neg (by rw [List.getLast?_concat]; decide), if_pos (List.getLast?_concat l)]
    rw [pyRstrip_append_singleton l 'm' ['m'] (by decide) (hnotS _ (by decide)), hq]
    rfl
  · rw [suffixed_string_to_float]
    rw [if_neg (by rw [List.getLast?_concat]; decide),
        if_neg (by rw [List.getLast?_concat]; decide),
        if_neg (by rw [List.getLast?_concat]; decide)]
    rw [if_pos (by rw [pyLower_getLast?, List.getLast?_concat]; rfl)]
    rw [pyRstrip_append_singleton l 'k' ['k', 'K'] (by decide) (hnotS _ (by decide)), hq]
    rfl
  · rw [suffixed_string_to_float]
    rw [if_neg (by rw [List.getLast?_concat]; decide),
        if_neg (by rw [List.getLast?_concat]; decide),
        if_neg (by rw [List.getLast?_concat]; decide)]
    rw [if_pos (by rw [pyLower_getLast?, List.getLast?_concat]; rfl)]
    rw [pyRstrip_append_singleton l 'K' ['k', 'K'] (by decide) (hnotS _ (by decide)), hq]
    rfl
  · rw [suffixed_string_to_float]
    rw [if_neg (by rw [List.getLast?_concat]; decide),
        if_neg (by rw [List.getLast?_concat]; decide),
        if_neg (by rw [List.getLast?_concat]; decide)]
    rw [if_neg (by rw [pyLower_getLast?, List.getLast?_concat]; decide)]
    rw [if_pos (List.getLast?_concat l)]
    rw [pyRstrip_append_singleton l 'M' ['M'] (by decide) (hnotS _ (by decide)), hq]
    rfl
  · rw [suffixed_string_to_float]
    rw [if_neg (by rw [hd]; simp [hn]), if_neg (by rw [hd]; simp [hu]),
        if_neg (by rw [hd]; simp [hm])]
    rw [if_neg (by rw [pyLower_getLast?, hd]; simp [hk]), if_neg (by rw [hd]; simp [hM])]
    exact hq

/-- Closed instance of suffix_scaling at the string 2.5: the m suffix
yields 2.5e-3. -/
theorem suffix_scaling_check :
    parseFloat ['2', '.', '5'] = some (5 / 2) ∧
    suffixed_string_to_float (['2', '.', '5'] ++ ['m']) = some ((5 / 2) * (1 / 1000)) :=
  ⟨by with_unfolding_all decide,
   (suffix_scaling ['2', '.', '5'] (5 / 2) '5' (by with_unfolding_all decide) (by decide)
      (by decide) (by decide)).2.2.1⟩

/-! ## Waveform decoder (_measurement_fetch_waveform) -/

/-- self._channel_count, fixed to 4 in __init__. -/
abbrev channelCount : ℕ := 4

/-- self._horizontal_divisions, fixed to 10 in __init__. -/
abbrev horizontalDivisions : ℕ := 10

/-- The for-loop of the decoder: build the output list, propagating the
struct.error a short byte slice raises. -/
def optionMapAll {α β : Type} (g : α → Option β) : List α → Option (List β)
  | [] => some []
  | x :: xs => do
    let y ← g x
    let ys ← optionMapAll g xs
    pure (y :: ys)

/-- One preamble field read of the decoder:
pre[i].split(=)[1].lstrip().rstrip(unit) through _suffixed_string_to_float. -/
def preFieldQ (pre : List (List Char)) (i : ℕ) (unit : Char) : Option ℚ := do
  let f ← pre.get? i
  let v ← (pySplit '=' f).get? 1
  suffixed_string_to_float (pyRstrip (pyLstrip v) [unit])

/-- The point-count preamble field read: int(pre[i].split(=)[1].lstrip()). -/
def preFieldInt (pre : List (List Char)) (i : ℕ) : Option ℤ := do
  let f ← pre.get? i
  let v ← (pySplit '=' f).get? 1
  parsePyInt (pyLstrip v)

/-- lecroyWaveJet300._measurement_fetch_waveform (lines 749-788), decode part:
from the comma-split preamble reply `pre` and the binary block bytes `raw`,
produce the (time, voltage) pairs for channel `index` whose probe attenuation
is `atten`.  The transport round trips surrounding the decode carry no data
relevant here; per the spec the decode is a pure function of
(preamble, raw block, channel count, channel index, probe attenuation). -/
def measurement_fetch_waveform (pre : List (List Char)) (raw : List ℕ)
    (index : ℕ) (atten : ℚ) : Option (List (ℚ × ℚ)) := do
  let points ← preFieldInt pre (2 + 4 * channelCount + 5)
  let xincrement ← preFieldQ pre (2 + 4 * channelCount + 2) 's'
  let tdiv ← preFieldQ pre (2 + 4 * channelCount + 2) 's'
  let trigdelay ← preFieldQ pre (2 + 4 * channelCount + 3) 's'
  let xorigin := -(tdiv * (horizontalDivisions : ℚ) / 2 + trigdelay)
  let yincrement0 ← preFieldQ pre (2 + 4 * index + 2) 'V'
  let yorigin0 ← preFieldQ pre (2 + 4 * index + 3) 'V'
  let yincrement := yincrement0 / atten
  let yorigin := yorigin0 / atten
  optionMapAll (fun i => do
      let b0 ← raw.get? (2 * i)
      let b1 ← raw.get? (2 * i + 1)
      pure (((i : ℚ) * xincrement) + xorigin,
            ((b0 * 256 + b1 : ℕ) : ℚ) * yincrement + yorigin))
    (List.range points.toNat)

lemma optionMapAll_eq_map {α β : Type} (g : α → Option β) (f : α → β) (l : List α)
    (h : ∀ a ∈ l, g a = some (f a)) : optionMapAll g l = some (l.map f) := by
  induction l with
  | nil => rfl
  | cons x xs ih =>
    rw [optionMapAll, h x (by simp), ih (fun a ha => h a (by simp [ha]))]
    rfl

/-! ## C3: waveform decode field positions and sample formula -/

/-- C3: the decoder takes the point count from field 2+4*C+5, the horizontal
increment and time-per-division from field 2+4*C+2, the trigger delay from
field 2+4*C+3, the vertical increment and origin for channel i from fields
2+4*i+2 and 2+4*i+3 each divided by the probe attenuation, computes
x_origin = -(time_per_division * horizontal_divisions / 2 + trigger_delay),
and emits exactly point_count pairs in increasing index order, where pair i
is (i * x_increment + x_origin, raw_i * y_increment + y_origin) with raw_i
the big-endian unsigned 16-bit integer at byte offset 2*i of the block. -/
theorem waveform_decode_fields (pre : List (List Char)) (raw : List ℕ) (index : ℕ)
    (atten : ℚ) (points : ℤ) (xinc tdel yinc yorig : ℚ)
    (hp : preFieldInt pre (2 + 4 * channelCount + 5) = some points)
    (hx : preFieldQ pre (2 + 4 * channelCount + 2) 's' = some xinc)
    (ht : preFieldQ pre (2 + 4 * channelCount + 3) 's' = some tdel)
    (hyi : preFieldQ pre (2 + 4 * index + 2) 'V' = some yinc)
    (hyo : preFieldQ pre (2 + 4 * index + 3) 'V' = some yorig)
    (hlen : 2 * points.toNat ≤ raw.length) :
    ∃ out, measurement_fetch_waveform pre raw index atten = some out ∧
      out.length = points.toNat ∧
      ∀ i b0 b1, i < points.toNat →
        raw.get? (2 * i) = some b0 → raw.get? (2 * i + 1) = some b1 →
        out.get? i = some
          ((i : ℚ) * xinc + (-(xinc * (horizontalDivisions : ℚ) / 2 + tdel)),
           ((b0 * 256 + b1 : ℕ) : ℚ) * (yinc / atten) + yorig / atten) := by
  refine ⟨(List.range points.toNat).map (fun (i : ℕ) =>
      ((i : ℚ) * xinc + (-(xinc * (horizontalDivisions : ℚ) / 2 + tdel)),
       (((raw.get? (2 * i)).getD 0 * 256 + (raw.get? (2 * i + 1)).getD 0 : ℕ) : ℚ) *
          (yinc / atten) + yorig / atten)), ?_, ?_, ?_⟩
  · rw [measurement_fetch_waveform, hp, hx, ht, hyi, hyo]
    simp only [Option.bind_eq_bind, Option.some_bind]
    apply optionMapAll_eq_map
    intro i hi
    rw [List.mem_range] at hi
    have h0 : 2 * i < raw.length := by omega
    have h1 : 2 * i + 1 < raw.length := by omega
    rw [List.get?_eq_get h0, List.get?_eq_get h1]
    simp only [Option.bind_eq_bind, Option.some_bind, Option.getD_some]
    rfl
  · simp
  · intro i b0 b1 hi hb0 hb1
    rw [List.get?_map, List.get?_range hi]
    simp only [Option.map_some']
    rw [hb0, hb1]
    simp only [Option.getD_some]

/-- A concrete preamble for channel count 4: vertical fields of channel 0 at
positions 4 and 5, horizontal field at 20, trigger delay at 21, point count
at 23. -/
def preW : List (List Char) :=
  ((((((List.replicate 24 ([] : List Char)).set 4 ['a', '=', '4', 'V']).set 5
      ['a', '=', '8', 'V']).set 20 ['a', '=', '2', 's']).set 21
      ['a', '=', '1', 's']).set 23 ['a', '=', '2'])

/-- Closed instance of waveform_decode_fields on a 2-point, 4-byte block. -/
theorem waveform_decode_fields_check :
    preFieldInt preW (2 + 4 * channelCount + 5) = some 2 ∧
    preFieldQ preW (2 + 4 * channelCount + 2) 's' = some 2 ∧
    preFieldQ preW (2 + 4 * channelCount + 3) 's' = some 1 ∧
    preFieldQ preW (2 + 4 * 0 + 2) 'V' = some 4 ∧
    preFieldQ preW (2 + 4 * 0 + 3) 'V' = some 8 ∧
    2 * (2 : ℤ).toNat ≤ ([0, 1, 0, 2] : List ℕ).length ∧
    ∃ out, measurement_fetch_waveform preW [0, 1, 0, 2] 0 2 = some out ∧
      out.length = (2 : ℤ).toNat ∧
      ∀ i b0 b1, i < (2 : ℤ).toNat →
        ([0, 1, 0, 2] : List ℕ).get? (2 * i) = some b0 →
        ([0, 1, 0, 2] : List ℕ).get? (2 * i + 1) = some b1 →
        out.get? i = some
          ((i : ℚ) * 2 + (-((2 : ℚ) * (horizontalDivisions : ℚ) / 2 + 1)),
           ((b0 * 256 + b1 : ℕ) : ℚ) * ((4 : ℚ) / 2) + (8 : ℚ) / 2) :=
  ⟨by with_unfolding_all decide, by with_unfolding_all decide, by with_unfolding_all decide,
   by with_unfolding_all decide, by with_unfolding_all decide, by decide,
   waveform_decode_fields preW [0, 1, 0, 2] 0 2 2 2 1 4 8
     (by with_unfolding_all decide) (by with_unfolding_all decide)
     (by with_unfolding_all decide) (by with_unfolding_all decide)
     (by with_unfolding_all decide) (by decide)⟩

/-! ## Measurement slot allocator (_measurement_fetch_waveform_measurement) -/

/-- A slot assignment: None, or a (channel name, function code) pair. -/
abbrev Assignment := Option (String × String)

/-- The slot table: the insertion-ordered dict self._measurement_slots. -/
abbrev SlotTable := List (String × Assignment)

/-- Device commands the modelled operations write, abstracting the formatted
wire strings of the source. -/
inductive Cmd
  | mdspOn
  | minmaxOff
  | dirm (slot : String)
  | msel (slot : String) (chan : String) (fn : String)
  | cpl (chan : String) (arg : String)
  | probe (chan : String) (mode : String) (att : ℤ)
  | tdiv (v : ℚ)
  deriving DecidableEq

/-- Result of a measurement read: NaN for the sentinel, or the plain value. -/
inductive MeasValue
  | nan
  | val (q : ℚ)
  deriving DecidableEq

/-- MeasurementFunctionMapping (lines 62-81). -/
def MeasurementFunctionMappingList : List (String × String) :=
  [("rise_time", "tr10-90"), ("fall_time", "tf90-10"), ("frequency", "freq"),
   ("period", "period"), ("voltage_rms", "vrms"), ("voltage_peak_to_peak", "p-p"),
   ("voltage_max", "max"), ("voltage_min", "min"), ("voltage_high", "top"),
   ("voltage_low", "base"), ("voltage_average", "vmean"), ("width_negative", "-width"),
   ("width_positive", "+width"), ("duty_cycle_positive", "duty"), ("amplitude", "t-b"),
   ("voltage_cycle_rms", "cvrms"), ("voltage_cycle_average", "cvmean"),
   ("overshoot", "+oshot"), ("preshoot", "-oshot")]

/-- Lookup in MeasurementFunctionMapping; none models the missing-key case
that raises ValueNotSupportedException. -/
def MeasurementFunctionMapping (s : String) : Option String :=
  (MeasurementFunctionMappingList.find? (fun p => p.1 == s)).map Prod.snd

/-- self._channel_name as built by _init_channels: CH%d for the four
channels, unrolled. -/
def channel_name_list : List String := ["CH1", "CH2", "CH3", "CH4"]

/-- self._channel_name[i]. -/
def channel_name (i : ℕ) : String := channel_name_list.getD i ""


/-- The slot-scanning loop (lines 809-822), carrying the running
selected_slot.  An exact match selects the slot and stops with
must_configure = False; an empty slot always overwrites the candidate; an
occupied non-matching slot is taken only while no candidate exists yet. -/
def scanSlots (req : String × String) : SlotTable → Option String → Option String × Bool
  | [], sel => (sel, true)
  | (slot, value) :: rest, sel =>
    if value = some req then (some slot, false)
    else if value = none then scanSlots req rest (some slot)
    else if sel = none then scanSlots req rest (some slot)
    else scanSlots req rest sel

/-- self._measurement_slots[selected_slot] = pair: a Python dict update of an
existing key keeps the iteration position. -/
def updateSlot : SlotTable → String → Assignment → SlotTable
  | [], _, _ => []
  | (k, v) :: rest, s, nv =>
    if k = s then (k, nv) :: rest else (k, v) :: updateSlot rest s nv

/-- The out-of-range sentinel 9.91e37, exact. -/
def sentinel : ℚ := 991 * 10 ^ 35

/-- Everything a call of _measurement_fetch_waveform_measurement does that is
visible to the caller or to later calls: the raised-exception flag, the slot
table after the call, the selected slot, the configuration commands written,
whether the settle delay ran, and the returned value. -/
structure FetchOut where
  err : Bool
  slots : SlotTable
  sel : Option String
  cmds : List Cmd
  settle : Bool
  result : Option MeasValue
  deriving DecidableEq

/-- lecroyWaveJet300._measurement_fetch_waveform_measurement (lines 802-836).
The channel-selector resolution of ivi.get_index is modelled from the spec as
a bound check (unknown channel names are a validation error); `reply` is the
device's answer to the MSR query.  The none-selection branch is unreachable
for the driver's four-slot table: it models the dict-indexing anomaly a
hypothetical empty table would produce. -/
def measurement_fetch_waveform_measurement (simulate : Bool) (slots : SlotTable)
    (index : ℕ) (measurementFunction : String) (reply : List Char) : FetchOut :=
  if index < channelCount then
    match MeasurementFunctionMapping measurementFunction with
    | none => ⟨true, slots, none, [], false, none⟩
    | some f =>
      if simulate then ⟨false, slots, none, [], false, some (MeasValue.val 0)⟩
      else
        let req : String × String := (channel_name index, f)
        let scan := scanSlots req slots none
        match scan.1 with
        | none => ⟨true, slots, none, [], false, none⟩
        | some s =>
          let mustConfigure := scan.2
          let slots2 := if mustConfigure then updateSlot slots s (some req) else slots
          let cmds : List Cmd :=
            if mustConfigure then
              [Cmd.mdspOn, Cmd.minmaxOff, Cmd.dirm s, Cmd.msel s req.1 req.2]
            else []
          match parseFloat (firstField ',' reply) with
          | none => ⟨true, slots2, some s, cmds, mustConfigure, none⟩
          | some value =>
            ⟨false, slots2, some s, cmds, mustConfigure,
             some (if value = sentinel then MeasValue.nan else MeasValue.val value)⟩
  else ⟨true, slots, none, [], false, none⟩

/-- First slot already assigned exactly the requested pair. -/
def firstMatch (req : String × String) : SlotTable → Option String
  | [] => none
  | (k, v) :: rest => if v = some req then some k else firstMatch req rest

/-- Last empty slot of the table. -/
def lastEmpty : SlotTable → Option String
  | [] => none
  | (k, v) :: rest =>
    match lastEmpty rest with
    | some s => some s
    | none => if v = none then some k else none

/-- First empty slot of the table. -/
def firstEmpty : SlotTable → Option String
  | [] => none
  | (k, v) :: rest => if v = none then some k else firstEmpty rest

/-- The selection policy the scan actually implements: the first exact match
if any, else the LAST empty slot, else the FIRST slot of the table. -/
def amendedSelect (req : String × String) (slots : SlotTable) : Option String × Bool :=
  match firstMatch req slots with
  | some s => (some s, false)
  | none =>
    match lastEmpty slots with
    | some s => (some s, true)
    | none => ((slots.head?).map Prod.fst, true)

/-- The selection policy as the claim words it: the first exact match if any,
else the FIRST empty slot, else the LAST slot seen during the scan. -/
def claimedSelect (req : String × String) (slots : SlotTable) : Option String :=
  match firstMatch req slots with
  | some s => some s
  | none =>
    match firstEmpty slots with
    | some s => some s
    | none => (slots.getLast?).map Prod.fst

/-- The slot table as initialized in __init__ (lines 128-131): four slots
A, B, C, D, all empty. -/
def slotsInit : SlotTable :=
  [("A", none), ("B", none), ("C", none), ("D", none)]

/-! ## Scan characterization lemmas -/

lemma scanSlots_some_acc (req : String × String) (slots : SlotTable) (s : String) :
    scanSlots req slots (some s) =
      match firstMatch req slots with
      | some m => (some m, false)
      | none =>
        match lastEmpty slots with
        | some e => (some e, true)
        | none => (some s, true) := by
  induction slots generalizing s with
  | nil => rfl
  | cons kv rest ih =>
    obtain ⟨k, v⟩ := kv
    by_cases hm : v = some req
    · simp [scanSlots, firstMatch, hm]
    · by_cases he : v = none
      · subst he
        simp only [scanSlots, if_neg hm, if_pos rfl, ih k, firstMatch, lastEmpty]
        cases firstMatch req rest <;> cases lastEmpty rest <;> simp
      · have hsn : (some s : Option String) ≠ none := by simp
        simp only [scanSlots, if_neg hm, if_neg he, if_neg hsn, ih s, firstMatch, lastEmpty]
        cases firstMatch req rest <;> cases lastEmpty rest <;> simp [he]

lemma scanSlots_none_eq (req : String × String) (slots : SlotTable) :
    scanSlots req slots none = amendedSelect req slots := by
  cases slots with
  | nil => rfl
  | cons kv rest =>
    obtain ⟨k, v⟩ := kv
    by_cases hm : v = some req
    · simp [scanSlots, amendedSelect, firstMatch, hm]
    · by_cases he : v = none
      · subst he
        simp only [scanSlots, if_neg hm, if_pos rfl, scanSlots_some_acc, amendedSelect,
          firstMatch, lastEmpty]
        cases firstMatch req rest <;> cases lastEmpty rest <;> simp
      · simp only [scanSlots, if_neg hm, if_neg he, if_pos rfl, scanSlots_some_acc,
          amendedSelect, firstMatch, lastEmpty]
        cases firstMatch req rest <;> cases lastEmpty rest <;> simp [he]

lemma lastEmpty_mem (slots : SlotTable) (e : String) (h : lastEmpty slots = some e) :
    e ∈ slots.map Prod.fst := by
  induction slots with
  | nil => exact absurd h (by simp [lastEmpty])
  | cons kv rest ih =>
    obtain ⟨k, v⟩ := kv
    rw [lastEmpty] at h
    cases hle : lastEmpty rest with
    | some s =>
      rw [hle] at h
      cases h
      exact List.mem_cons_of_mem _ (ih hle)
    | none =>
      rw [hle] at h
      by_cases hv : v = none
      · rw [if_pos hv] at h
        cases h
        exact List.mem_cons_self _ _
      · rw [if_neg hv] at h
        cases h

lemma firstMatch_updateSlot (req : String × String) (slots : SlotTable) (s : String)
    (hk : s ∈ slots.map Prod.fst) (hn : firstMatch req slots = none) :
    firstMatch req (updateSlot slots s (some req)) = some s := by
  induction slots with
  | nil => simp at hk
  | cons kv rest ih =>
    obtain ⟨k, v⟩ := kv
    have hv : v ≠ some req := by
      intro h
      rw [firstMatch, if_pos h] at hn
      cases hn
    rw [firstMatch, if_neg hv] at hn
    rw [updateSlot]
    by_cases hks : k = s
    · rw [if_pos hks, firstMatch, if_pos rfl, hks]
    · rw [if_neg hks, firstMatch, if_neg hv]
      have hk' : s ∈ rest.map Prod.fst := by
        rcases List.mem_cons.mp hk with h | h
        · exact absurd h.symm hks
        · exact h
      exact ih hk' hn

lemma fetch_eq_of_scan (slots : SlotTable) (index : ℕ) (mfun f : String)
    (reply : List Char) (s : String) (mc : Bool)
    (hidx : index < channelCount)
    (hfm : MeasurementFunctionMapping mfun = some f)
    (hscan : scanSlots (channel_name index, f) slots none = (some s, mc)) :
    measurement_fetch_waveform_measurement false slots index mfun reply =
      ⟨(parseFloat (firstField ',' reply)).isNone,
       if mc then updateSlot slots s (some (channel_name index, f)) else slots,
       some s,
       if mc then [Cmd.mdspOn, Cmd.minmaxOff, Cmd.dirm s, Cmd.msel s (channel_name index) f]
       else [],
       mc,
       (parseFloat (firstField ',' reply)).map
         (fun v => if v = sentinel then MeasValue.nan else MeasValue.val v)⟩ := by
  rw [measurement_fetch_waveform_measurement, if_pos hidx, hfm]
  simp only [hscan, Bool.false_eq_true, if_false]
  cases hpf : parseFloat (firstField ',' reply) <;> simp [hpf]

/-! ## C1: slot selection policy -/

/-- C1 (amended): for every requested (channel, function) pair the scan
selects the first slot already assigned exactly the requested pair if one
exists; otherwise the LAST empty slot encountered during the scan; otherwise,
when no exact match and no empty slot exist, the FIRST slot seen during the
scan, whose assignment is evicted. -/
theorem slot_selection_policy (req : String × String) (slots : SlotTable) :
    scanSlots req slots none = amendedSelect req slots :=
  scanSlots_none_eq req slots

/-- C1 counterexample: on the all-empty initial table the code selects slot D
(the last empty slot), while the claimed policy (first empty slot) selects A. -/
theorem slot_selection_claim_counterexample :
    (scanSlots ("CH1", "freq") slotsInit none).1 = some ("D") ∧
    claimedSelect ("CH1", "freq") slotsInit = some ("A") ∧
    (some ("D") : Option String) ≠ some ("A") := by
  decide

/-! ## C6: slot reuse -/

/-- C6: requesting the same (channel, function) pair twice in a row in
non-simulate mode selects the same slot on both calls, and the second call
issues none of the configuration commands (MDSP ON, MINMAX OFF, DIRM, MSEL),
incurs no settle delay, and leaves the slot table unchanged. -/
theorem slot_reuse (slots : SlotTable) (index : ℕ) (mfun : String)
    (r1 r2 : List Char) (o1 o2 : FetchOut)
    (hne : slots ≠ []) (hidx : index < channelCount)
    (hf : (MeasurementFunctionMapping mfun).isSome = true)
    (h1 : measurement_fetch_waveform_measurement false slots index mfun r1 = o1)
    (h2 : measurement_fetch_waveform_measurement false o1.slots index mfun r2 = o2) :
    o2.sel = o1.sel ∧ o2.cmds = [] ∧ o2.settle = false ∧ o2.slots = o1.slots := by
  obtain ⟨f, hfm⟩ := Option.isSome_iff_exists.mp hf
  subst h2
  subst h1
  cases hfm1 : firstMatch (channel_name index, f) slots with
  | some m =>
    have hscan : scanSlots (channel_name index, f) slots none = (some m, false) := by
      rw [scanSlots_none_eq, amendedSelect, hfm1]
    rw [fetch_eq_of_scan slots index mfun f r1 m false hidx hfm hscan]
    simp only [if_neg Bool.false_ne_true]
    rw [fetch_eq_of_scan slots index mfun f r2 m false hidx hfm hscan]
    simp
  | none =>
    have hex : ∃ s, scanSlots (channel_name index, f) slots none = (some s, true) ∧
        s ∈ slots.map Prod.fst := by
      rw [scanSlots_none_eq, amendedSelect, hfm1]
      cases hle : lastEmpty slots with
      | some e => exact ⟨e, rfl, lastEmpty_mem _ _ hle⟩
      | none =>
        cases slots with
        | nil => exact absurd rfl hne
        | cons kv rest => exact ⟨kv.1, rfl, by simp⟩
    obtain ⟨s, hscan, hmem⟩ := hex
    rw [fetch_eq_of_scan slots index mfun f r1 s true hidx hfm hscan]
    have hfm2 : firstMatch (channel_name index, f)
        (updateSlot slots s (some (channel_name index, f))) = some s :=
      firstMatch_updateSlot _ slots s hmem hfm1
    have hscan2 : scanSlots (channel_name index, f)
        (updateSlot slots s (some (channel_name index, f))) none = (some s, false) := by
      rw [scanSlots_none_eq, amendedSelect, hfm2]
    simp only [eq_self_iff_true, if_true]
    rw [fetch_eq_of_scan _ index mfun f r2 s false hidx hfm hscan2]
    simp

/-- The table after the first witness call: slot D bound to (CH1, freq). -/
def slotsW : SlotTable :=
  [("A", none), ("B", none), ("C", none), ("D", some ("CH1", "freq"))]

/-- Expected outcome of the first witness call: configures slot D. -/
def fetchOut1 : FetchOut :=
  ⟨false, slotsW, some ("D"),
   [Cmd.mdspOn, Cmd.minmaxOff, Cmd.dirm ("D"), Cmd.msel ("D") ("CH1") ("freq")],
   true, some (MeasValue.val 1)⟩

/-- Expected outcome of the second witness call: reuses slot D silently. -/
def fetchOut2 : FetchOut :=
  ⟨false, slotsW, some ("D"), [], false, some (MeasValue.val 1)⟩

set_option maxRecDepth 4000 in
/-- Closed instance of slot_reuse on the initial table and frequency on CH1. -/
theorem slot_reuse_check :
    slotsInit ≠ [] ∧
    (MeasurementFunctionMapping ("frequency")).isSome = true ∧
    measurement_fetch_waveform_measurement false slotsInit 0 "frequency" ['1'] = fetchOut1 ∧
    measurement_fetch_waveform_measurement false fetchOut1.slots 0 "frequency" ['1'] =
      fetchOut2 ∧
    (fetchOut2.sel = fetchOut1.sel ∧ fetchOut2.cmds = [] ∧ fetchOut2.settle = false ∧
      fetchOut2.slots = fetchOut1.slots) :=
  ⟨by decide, by decide, by with_unfolding_all rfl, by with_unfolding_all rfl,
   slot_reuse slotsInit 0 "frequency" ['1'] ['1'] fetchOut1 fetchOut2 (by decide) (by decide)
     (by decide) (by with_unfolding_all rfl) (by with_unfolding_all rfl)⟩

/-! ## C7: sentinel-to-NaN mapping -/

/-- C7: for every measurement-slot read in non-simulate mode, if the numeric
value parsed from the first comma-separated field of the reply equals exactly
9.91e37 the operation returns NaN, and for every other value it returns that
value unchanged. -/
theorem sentinel_mapping (slots : SlotTable) (index : ℕ) (mfun : String)
    (reply : List Char) (q : ℚ)
    (hne : slots ≠ []) (hidx : index < channelCount)
    (hf : (MeasurementFunctionMapping mfun).isSome = true)
    (hq : parseFloat (firstField ',' reply) = some q) :
    (measurement_fetch_waveform_measurement false slots index mfun reply).result =
      some (if q = sentinel then MeasValue.nan else MeasValue.val q) := by
  obtain ⟨f, hfm⟩ := Option.isSome_iff_exists.mp hf
  have hex : ∃ s mc, scanSlots (channel_name index, f) slots none = (some s, mc) := by
    rw [scanSlots_none_eq, amendedSelect]
    cases hfm1 : firstMatch (channel_name index, f) slots with
    | some m => exact ⟨m, false, rfl⟩
    | none =>
      cases hle : lastEmpty slots with
      | some e => exact ⟨e, true, rfl⟩
      | none =>
        cases slots with
        | nil => exact absurd rfl hne
        | cons kv rest => exact ⟨kv.1, true, rfl⟩
  obtain ⟨s, mc, hscan⟩ := hex
  rw [fetch_eq_of_scan slots index mfun f reply s mc hidx hfm hscan]
  simp [hq]

/-- Closed instance of sentinel_mapping at a reply whose first field is the
sentinel. -/
theorem sentinel_mapping_check :
    parseFloat (firstField ',' ['9', '.', '9', '1', 'e', '3', '7', ',', 's']) =
      some sentinel ∧
    (measurement_fetch_waveform_measurement false slotsInit 0 "frequency"
        ['9', '.', '9', '1', 'e', '3', '7', ',', 's']).result =
      some (if sentinel = sentinel then MeasValue.nan else MeasValue.val sentinel) :=
  ⟨by with_unfolding_all rfl,
   sentinel_mapping slotsInit 0 "frequency" ['9', '.', '9', '1', 'e', '3', '7', ',', 's']
     sentinel (by decide) (by decide) (by decide) (by with_unfolding_all rfl)⟩

/-! ## Attribute cache and scalar attribute operations -/

/-- Modelled from the spec, section 3/4.1 (the ivi base module holding
_set_cache_valid and _get_cache_valid is not among the sources): a cache
entry is a stored value paired with a validity flag; invalidation clears the
flag and keeps the value. -/
structure Entry (α : Type) where
  value : α
  valid : Bool
  deriving DecidableEq

/-- A Python value cached for the probe-attenuation-auto attribute: the
getter stores a bool, the setter stores the wire keyword string. -/
inductive PyVal
  | pybool (b : Bool)
  | pystr (s : String)
  deriving DecidableEq

/-- The driver state the modelled attribute accessors touch.  Per-channel
attributes are the global per-channel lists, one cache entry per channel. -/
structure ScopeState where
  timebase_scale : Entry ℚ
  timebase_range : Entry ℚ
  channel_coupling : Fin channelCount → Entry String
  channel_input_impedance : Fin channelCount → Entry ℚ
  channel_probe_attenuation : Fin channelCount → Entry ℤ
  channel_probe_attenuation_auto : Fin channelCount → Entry PyVal

/-- Result of an attribute setter: the state after the call, the commands
written, and whether the call succeeded (ok = false models a raised
exception, with the state at the raise point). -/
structure SetResult where
  st : ScopeState
  cmds : List Cmd
  ok : Bool

/-- Result of an attribute getter: the state after the call, the number of
device queries issued, and the returned value (none models a raised
exception). -/
structure GetOut (α : Type) where
  st : ScopeState
  queries : ℕ
  result : Option α

/-- VerticalCouplingMapping (lines 40-43). -/
def VerticalCouplingMapping (s : String) : Option String :=
  (([("ac", "AC1M"), ("dc", "DC1M"), ("gnd", "GND")] : List (String × String)).find?
    (fun p => p.1 == s)).map Prod.snd

/-- self._channel_command_name as built by _init_channels: C%d for the four
channels, unrolled. -/
def channel_command_name_list : List String := ["C1", "C2", "C3", "C4"]

/-- self._channel_command_name[i]. -/
def channel_command_name (i : ℕ) : String := channel_command_name_list.getD i ""

/-- _set_channel_coupling (lines 591-599): validate against the mapping,
write CPL, cache the coupling, invalidate the same channel's input
impedance. -/
def set_channel_coupling (simulate : Bool) (st : ScopeState) (index : ℕ)
    (value : String) : SetResult :=
  if h : index < channelCount then
    let i : Fin channelCount := ⟨index, h⟩
    match VerticalCouplingMapping value with
    | none => ⟨st, [], false⟩
    | some wire =>
      ⟨{ st with
          channel_coupling := Function.update st.channel_coupling i ⟨value, true⟩,
          channel_input_impedance := Function.update st.channel_input_impedance i
            ⟨(st.channel_input_impedance i).value, false⟩ },
        if simulate then [] else [Cmd.cpl (channel_command_name index) wire], true⟩
  else ⟨st, [], false⟩

/-- _set_channel_input_impedance (lines 499-511): only 1 MOhm, or 50 Ohm
with DC coupling, is accepted; the CPL write happens only under DC coupling;
the requested value is cached optimistically. -/
def set_channel_input_impedance (simulate : Bool) (st : ScopeState) (index : ℕ)
    (value : ℚ) : SetResult :=
  if h : index < channelCount then
    let i : Fin channelCount := ⟨index, h⟩
    if ¬(value = 1000000 ∨ (value = 50 ∧ (st.channel_coupling i).value = "dc")) then
      ⟨st, [], false⟩
    else
      let cmds : List Cmd :=
        if simulate then []
        else if (st.channel_coupling i).value = "dc" then
          if value = 1000000 then [Cmd.cpl (channel_command_name index) ("DC1M")]
          else if value = 50 then [Cmd.cpl (channel_command_name index) ("DC50")]
          else []
        else []
      ⟨{ st with channel_input_impedance :=
            Function.update st.channel_input_impedance i ⟨value, true⟩ },
        cmds, true⟩
  else ⟨st, [], false⟩

/-- _set_channel_probe_attenuation (lines 532-539): write PROBE manual,
cache the integer value, invalidate the same channel's auto flag. -/
def set_channel_probe_attenuation (simulate : Bool) (st : ScopeState) (index : ℕ)
    (value : ℤ) : SetResult :=
  if h : index < channelCount then
    let i : Fin channelCount := ⟨index, h⟩
    ⟨{ st with
        channel_probe_attenuation := Function.update st.channel_probe_attenuation i
          ⟨value, true⟩,
        channel_probe_attenuation_auto := Function.update st.channel_probe_attenuation_auto i
          ⟨(st.channel_probe_attenuation_auto i).value, false⟩ },
      if simulate then [] else [Cmd.probe (channel_command_name index) ("manual") value],
      true⟩
  else ⟨st, [], false⟩

/-- _set_channel_probe_attenuation_auto (lines 548-558): the Python code
rebinds the variable value to the wire keyword, so the STRING auto/manual is
what ends up cached; the same channel's probe attenuation is invalidated. -/
def set_channel_probe_attenuation_auto (simulate : Bool) (st : ScopeState) (index : ℕ)
    (value : Bool) : SetResult :=
  if h : index < channelCount then
    let i : Fin channelCount := ⟨index, h⟩
    let v : String := if value then "auto" else "manual"
    ⟨{ st with
        channel_probe_attenuation_auto := Function.update st.channel_probe_attenuation_auto i
          ⟨PyVal.pystr v, true⟩,
        channel_probe_attenuation := Function.update st.channel_probe_attenuation i
          ⟨(st.channel_probe_attenuation i).value, false⟩ },
      if simulate then [] else [Cmd.probe (channel_command_name index) v 1], true⟩
  else ⟨st, [], false⟩

/-- _get_channel_probe_attenuation_auto (lines 541-546): on a cache miss in
non-simulate mode, one PROBE? query; the reply's first comma field, lowered,
compared against auto, is cached as a bool. -/
def get_channel_probe_attenuation_auto (simulate : Bool) (st : ScopeState) (index : ℕ)
    (reply : List Char) : GetOut PyVal :=
  if h : index < channelCount then
    let i : Fin channelCount := ⟨index, h⟩
    if !simulate && !(st.channel_probe_attenuation_auto i).valid then
      let v : PyVal := PyVal.pybool (pyLower (firstField ',' reply) == ['a', 'u', 't', 'o'])
      ⟨{ st with channel_probe_attenuation_auto :=
            Function.update st.channel_probe_attenuation_auto i ⟨v, true⟩ },
        1, some v⟩
    else ⟨st, 0, some (st.channel_probe_attenuation_auto i).value⟩
  else ⟨st, 0, none⟩

/-- Python round(x, 6): round to 6 decimal places, ties to even. -/
def pyRound6 (q : ℚ) : ℚ :=
  let scaled := q * 1000000
  let fl : ℤ := ⌊scaled⌋
  let frac := scaled - fl
  let r : ℤ :=
    if frac < 1 / 2 then fl
    else if 1 / 2 < frac then fl + 1
    else if 2 ∣ fl then fl else fl + 1
  (r : ℚ) / 1000000

/-- _get_timebase_scale (lines 386-392): on a cache miss in non-simulate
mode, one TDIV? query; the parsed scale is cached, and the range entry is
cached as round(scale * horizontal_divisions, 6). -/
def get_timebase_scale (simulate : Bool) (st : ScopeState) (reply : List Char) :
    GetOut ℚ :=
  if !simulate && !st.timebase_scale.valid then
    match parseFloat reply with
    | none => ⟨st, 1, none⟩
    | some v =>
      ⟨{ st with
          timebase_scale := ⟨v, true⟩,
          timebase_range := ⟨pyRound6 (v * (horizontalDivisions : ℚ)), true⟩ },
        1, some v⟩
  else ⟨st, 0, some st.timebase_scale.value⟩

/-- _set_timebase_scale (lines 394-400): write TDIV, then force both the
scale and the range cache entries invalid (coercion case: nothing cached). -/
def set_timebase_scale (simulate : Bool) (st : ScopeState) (value : ℚ) : SetResult :=
  ⟨{ st with
      timebase_scale := ⟨st.timebase_scale.value, false⟩,
      timebase_range := ⟨st.timebase_range.value, false⟩ },
    if simulate then [] else [Cmd.tdiv value], true⟩

/-- A concrete driver state: the timebase values of __init__ (lines 124-125);
the channel defaults, not fixed by the sources here, are modelled from the
spec as DC coupling, 1 MOhm, attenuation 1, auto probe sensing; every cache
entry starts invalid. -/
def stW : ScopeState :=
  { timebase_scale := ⟨1 / 10000, false⟩,
    timebase_range := ⟨1 / 1000, false⟩,
    channel_coupling := fun _ => ⟨"dc", false⟩,
    channel_input_impedance := fun _ => ⟨1000000, false⟩,
    channel_probe_attenuation := fun _ => ⟨1, false⟩,
    channel_probe_attenuation_auto := fun _ => ⟨PyVal.pybool true, false⟩ }

/-- The same state with AC coupling cached on every channel. -/
def stAC : ScopeState :=
  { stW with channel_coupling := fun _ => ⟨"ac", true⟩ }

/-! ## C2: cache idempotence defect of the probe-attenuation-auto setter -/

/-- C2 (code defect exhibit): after set_channel_probe_attenuation_auto(True),
the getter answers from the cache without a device query, but returns the
cached wire STRING auto, which is neither the boolean True that was set nor
any boolean at all. -/
theorem probe_auto_cache_returns_string :
    (get_channel_probe_attenuation_auto false
        (set_channel_probe_attenuation_auto false stW 0 true).st 0 ['x']).queries = 0 ∧
    (get_channel_probe_attenuation_auto false
        (set_channel_probe_attenuation_auto false stW 0 true).st 0 ['x']).result =
      some (PyVal.pystr ("auto")) ∧
    PyVal.pystr ("auto") ≠ PyVal.pybool true ∧
    PyVal.pystr ("auto") ≠ PyVal.pybool false :=
  ⟨by with_unfolding_all rfl, by with_unfolding_all rfl, by decide, by decide⟩

/-! ## C4: timebase range cache rounding -/

/-- C4 (code defect exhibit): refreshing the timebase scale from a TDIV?
reply of 2e-9 marks both entries valid but caches range
round(2e-8, 6) = 0, violating range = scale * horizontal_divisions; the
second half of the claim, that a scale write invalidates both entries,
does hold. -/
theorem timebase_round_breaks_invariant :
    (get_timebase_scale false stW ['2', 'e', '-', '9']).st.timebase_scale =
      ⟨1 / 500000000, true⟩ ∧
    (get_timebase_scale false stW ['2', 'e', '-', '9']).st.timebase_range = ⟨0, true⟩ ∧
    (0 : ℚ) ≠ (1 / 500000000) * (horizontalDivisions : ℚ) ∧
    (set_timebase_scale false stW (1 / 1000)).st.timebase_scale.valid = false ∧
    (set_timebase_scale false stW (1 / 1000)).st.timebase_range.valid = false :=
  ⟨by with_unfolding_all rfl, by with_unfolding_all rfl, by norm_num, rfl, rfl⟩

/-! ## C5: dependency invalidation -/

/-- C5: a successful set of channel coupling invalidates that channel's
cached input impedance; a set of channel probe attenuation invalidates that
channel's cached probe-attenuation-auto flag; a set of probe-attenuation-auto
invalidates that channel's cached probe attenuation; a timebase scale write
invalidates the cached timebase range. -/
theorem dependency_invalidation (simulate : Bool) (st : ScopeState)
    (i : Fin channelCount) (cv : String) (att : ℤ) (b : Bool) (v : ℚ) :
    ((VerticalCouplingMapping cv).isSome = true →
      ((set_channel_coupling simulate st i cv).st.channel_input_impedance i).valid =
        false) ∧
    ((set_channel_probe_attenuation simulate st i
        att).st.channel_probe_attenuation_auto i).valid = false ∧
    ((set_channel_probe_attenuation_auto simulate st i
        b).st.channel_probe_attenuation i).valid = false ∧
    (set_timebase_scale simulate st v).st.timebase_range.valid = false := by
  refine ⟨?_, ?_, ?_, rfl⟩
  · intro hsome
    obtain ⟨w, hw⟩ := Option.isSome_iff_exists.mp hsome
    simp [set_channel_coupling, i.isLt, Fin.eta, hw, Function.update_same]
  · simp [set_channel_probe_attenuation, i.isLt, Fin.eta, Function.update_same]
  · simp [set_channel_probe_attenuation_auto, i.isLt, Fin.eta, Function.update_same]

/-- Closed instance of dependency_invalidation on channel 0. -/
theorem dependency_invalidation_check :
    (VerticalCouplingMapping ("ac")).isSome = true ∧
    ((set_channel_coupling false stW 0 "ac").st.channel_input_impedance 0).valid = false ∧
    ((set_channel_probe_attenuation false stW 0
        10).st.channel_probe_attenuation_auto 0).valid = false ∧
    ((set_channel_probe_attenuation_auto false stW 0
        true).st.channel_probe_attenuation 0).valid = false ∧
    (set_timebase_scale false stW (1 / 1000)).st.timebase_range.valid = false :=
  ⟨by decide,
   (dependency_invalidation false stW 0 "ac" 10 true (1 / 1000)).1 (by decide),
   (dependency_invalidation false stW 0 "ac" 10 true (1 / 1000)).2.1,
   (dependency_invalidation false stW 0 "ac" 10 true (1 / 1000)).2.2.1,
   (dependency_invalidation false stW 0 "ac" 10 true (1 / 1000)).2.2.2⟩

/-! ## C9: validation errors precede device I/O -/

/-- C9: a caller-supplied value outside the legal domain (an impedance other
than 1 MOhm, or 50 Ohm without DC coupling; a coupling outside the mapping; a
measurement function outside the mapping) makes the operation fail with no
command written, the state returned exactly as it was, and the slot table
unchanged. -/
theorem validation_before_io (simulate : Bool) (st : ScopeState) (slots : SlotTable)
    (i : Fin channelCount) (index : ℕ) (v : ℚ) (cv mf : String) (reply : List Char) :
    (¬(v = 1000000 ∨ (v = 50 ∧ (st.channel_coupling i).value = "dc")) →
      set_channel_input_impedance simulate st i v = ⟨st, [], false⟩) ∧
    (VerticalCouplingMapping cv = none →
      set_channel_coupling simulate st index cv = ⟨st, [], false⟩) ∧
    (MeasurementFunctionMapping mf = none →
      measurement_fetch_waveform_measurement simulate slots index mf reply =
        ⟨true, slots, none, [], false, none⟩) := by
  refine ⟨?_, ?_, ?_⟩
  · intro hbad
    rw [set_channel_input_impedance, dif_pos i.isLt]
    simp only [Fin.eta]
    rw [if_pos hbad]
  · intro hnone
    rw [set_channel_coupling]
    by_cases h : index < channelCount
    · rw [dif_pos h]
      simp only [hnone]
    · rw [dif_neg h]
  · intro hnone
    rw [measurement_fetch_waveform_measurement]
    by_cases h : index < channelCount
    · rw [if_pos h]
      simp only [hnone]
    · rw [if_neg h]

/-- Closed instance of validation_before_io: impedance 7 Ohm, coupling xx,
measurement function bogus. -/
theorem validation_before_io_check :
    (¬((7 : ℚ) = 1000000 ∨ ((7 : ℚ) = 50 ∧ (stW.channel_coupling 0).value = "dc"))) ∧
    set_channel_input_impedance false stW 0 7 = ⟨stW, [], false⟩ ∧
    VerticalCouplingMapping ("xx") = none ∧
    set_channel_coupling false stW 0 "xx" = ⟨stW, [], false⟩ ∧
    MeasurementFunctionMapping ("bogus") = none ∧
    measurement_fetch_waveform_measurement false slotsInit 0 "bogus" ['1'] =
      ⟨true, slotsInit, none, [], false, none⟩ :=
  ⟨by decide,
   (validation_before_io false stW slotsInit 0 0 7 "xx" "bogus" ['1']).1 (by decide),
   by decide,
   (validation_before_io false stW slotsInit 0 0 7 "xx" "bogus" ['1']).2.1 (by decide),
   by decide,
   (validation_before_io false stW slotsInit 0 0 7 "xx" "bogus" ['1']).2.2 (by decide)⟩

/-! ## C10: impedance setter frame effect -/

/-- C10: setting the input impedance to 1 MOhm while the channel's cached
coupling is not dc issues no device command at all, yet still stores 1000000
in the impedance cache entry and marks it valid; a CPL command is written
only when the cached coupling is dc. -/
theorem impedance_set_frame (st : ScopeState) (i : Fin channelCount) :
    ((st.channel_coupling i).value ≠ "dc" →
      set_channel_input_impedance false st i 1000000 =
        ⟨{ st with channel_input_impedance :=
              Function.update st.channel_input_impedance i ⟨1000000, true⟩ }, [], true⟩) ∧
    (∀ v : ℚ, (set_channel_input_impedance false st i v).cmds ≠ [] →
      (st.channel_coupling i).value = "dc") := by
  constructor
  · intro hndc
    simp [set_channel_input_impedance, i.isLt, Fin.eta, hndc]
  · intro v hcmds
    by_contra hndc
    apply hcmds
    by_cases hv : v = (1000000 : ℚ)
    · subst hv
      simp [set_channel_input_impedance, i.isLt, Fin.eta, hndc]
    · simp [set_channel_input_impedance, i.isLt, Fin.eta, hndc, hv]

/-- Closed instance of impedance_set_frame: 1 MOhm under AC coupling writes
nothing; 50 Ohm under DC coupling does write. -/
theorem impedance_set_frame_check :
    (stAC.channel_coupling 0).value ≠ "dc" ∧
    set_channel_input_impedance false stAC 0 1000000 =
      ⟨{ stAC with channel_input_impedance :=
            Function.update stAC.channel_input_impedance 0 ⟨1000000, true⟩ }, [], true⟩ ∧
    (set_channel_input_impedance false stW 0 50).cmds ≠ [] ∧
    (stW.channel_coupling 0).value = "dc" :=
  ⟨by decide, (impedance_set_frame stAC 0).1 (by decide),
   by with_unfolding_all decide,
   (impedance_set_frame stW 0).2 50 (by with_unfolding_all decide)⟩

end WaveJet
